import Mathlib

/-!
# A shallow embedding of `src/compile.cc`

This file models the grammar-building core of the tree-sitter CLI binding:
the recursive converter `RuleFromJsRule` from dynamic (JavaScript/v8) rule
nodes to typed rules, the assembler `GrammarFromJsGrammar`, and the boundary
function `Compile`.

The embedding mirrors the v8 API as the source uses it:

* JavaScript values are modelled by the inductive `JsValue`.
* `v8::ThrowException` schedules a pending exception but does **not**
  interrupt C++ control flow; the source only ever *sets* the pending
  exception (it never reads it), and a later throw replaces an earlier one.
  The outcome of a computation is therefore modelled by `Res α`: a returned value
  together with the last exception message thrown during the computation
  (if any), or `crash`.
* The source uses unchecked `Handle<T>::Cast` casts.  An operation that is
  only defined on the real type (`Array::Length`, `Array::Get`,
  `Object::GetOwnPropertyNames`) applied to a value of the wrong dynamic
  type is undefined behaviour in v8; the embedding makes that outcome
  explicit as `Res.crash`.
* `StringFromJsString` builds a `v8::String::Utf8Value`, whose constructor
  applies the JavaScript `ToString` conversion to its argument; this is
  modelled by `jsToString` (so e.g. a missing field, read as `undefined`,
  stringifies to `"undefined"`).
-/

/-- The numeric value of a decimal digit character, if any. -/
def charDigit (c : Char) : Option Nat :=
  if c = '0' then some 0 else if c = '1' then some 1 else if c = '2' then some 2
  else if c = '3' then some 3 else if c = '4' then some 4 else if c = '5' then some 5
  else if c = '6' then some 6 else if c = '7' then some 7 else if c = '8' then some 8
  else if c = '9' then some 9 else none

/-- Reads a list of decimal digits, accumulating their value; `none` if some
character is not a digit. -/
def digitsToNat : Nat → List Char → Option Nat
  | acc, [] => some acc
  | acc, c :: rest =>
    match charDigit c with
    | some d => digitsToNat (acc * 10 + d) rest
    | none => none

/-- The canonical array-index reading of a JavaScript property key: `"0"`,
`"1"`, … (no leading zeros, no other characters). -/
def arrayIndexOf (key : String) : Option Nat :=
  match key.data with
  | [] => none
  | ['0'] => some 0
  | c :: rest => if c = '0' then none else digitsToNat 0 (c :: rest)

/-- A dynamic JavaScript value, as far as the source observes it:
`undefined`, `null`, booleans, (integral) numbers, strings, arrays and
plain objects (ordered field lists). -/
inductive JsValue where
  | undefined : JsValue
  | null : JsValue
  | boolean : Bool → JsValue
  | number : Int → JsValue
  | str : String → JsValue
  | array : List JsValue → JsValue
  | object : List (String × JsValue) → JsValue
deriving Repr

namespace JsValue

/-- `v8::Value::IsObject`: true exactly for objects and arrays. -/
def isObject : JsValue → Bool
  | .array _ => true
  | .object _ => true
  | _ => false

/-- `v8::Value::IsString`. -/
def isString : JsValue → Bool
  | .str _ => true
  | _ => false

/-- Property lookup in the field list of an object; a missing key reads as
`undefined`, as in JavaScript. -/
def lookupField : List (String × JsValue) → String → JsValue
  | [], _ => .undefined
  | (k, v) :: rest, key => if k = key then v else lookupField rest key

/-- `object->Get(String::NewSymbol(key))` (the body of `ObjectGet` in the
source).  On a plain object this is field lookup; on an array the only own
properties are `"length"` and the canonical element indices; any other
receiver yields `undefined`. -/
def get : JsValue → String → JsValue
  | .object fields, key => lookupField fields key
  | .array l, key =>
    if key = "length" then .number (Int.ofNat l.length)
    else
      match arrayIndexOf key with
      | some i => l.getD i .undefined
      | none => .undefined
  | _, _ => .undefined

end JsValue

/-- The outcome of a piece of C++ code from the source: either a normally
returned value `val` together with the pending-exception state it leaves
behind (`thrown` is the message of the last `ThrowException` executed, or
`none`), or undefined behaviour (`crash`) from an unchecked cast. -/
inductive Res (α : Type) where
  | ok : α → Option String → Res α
  | crash : String → Res α
deriving Repr

/-- Pending-exception state after running two pieces of code in sequence:
a later `ThrowException` replaces an earlier pending exception. -/
def lastThrow (t₁ t₂ : Option String) : Option String :=
  match t₂ with
  | some m => some m
  | none => t₁

/-- The typed rule AST (`tree_sitter::rules`).  The source manipulates
rules through `rule_ptr` (a nullable shared pointer), and the composite
constructors `choice`, `err`, `repeat` and `seq` are passed the raw results
of recursive `RuleFromJsRule` calls, which may be null; children are
therefore `Option Rule`, with `none` standing for a null `rule_ptr`. -/
inductive Rule where
  | blank : Rule
  | choice : List (Option Rule) → Rule
  | err : Option Rule → Rule
  | pattern : String → Rule
  | repeat : Option Rule → Rule
  | seq : List (Option Rule) → Rule
  | str : String → Rule
  | sym : String → Rule
deriving Repr

/-- The JavaScript `ToString` conversion, as applied by the
`v8::String::Utf8Value` constructor inside `StringFromJsString`. -/
def jsToString : JsValue → String
  | .undefined => "undefined"
  | .null => "null"
  | .boolean true => "true"
  | .boolean false => "false"
  | .number n => toString n
  | .str s => s
  | .array l => String.intercalate "," (jsToStringElems l)
  | .object _ => "[object Object]"
where
  /-- `Array.prototype.toString` joins the elements with `","`, rendering
  `undefined` and `null` elements as the empty string. -/
  jsToStringElems : List JsValue → List String
  | [] => []
  | .undefined :: rest => "" :: jsToStringElems rest
  | .null :: rest => "" :: jsToStringElems rest
  | v :: rest => jsToString v :: jsToStringElems rest

theorem one_le_sizeOf_list {α : Type} [SizeOf α] (l : List α) : 1 ≤ sizeOf l := by
  cases l <;> simp_arith

theorem sizeOf_lookupField_lt (fields : List (String × JsValue)) (key : String) :
    sizeOf (JsValue.lookupField fields key) < 1 + sizeOf fields := by
  induction fields with
  | nil => simp [JsValue.lookupField]
  | cons p rest ih =>
    obtain ⟨k, v⟩ := p
    simp only [JsValue.lookupField]
    split
    · simp_arith
    · simp only [List.cons.sizeOf_spec, Prod.mk.sizeOf_spec]
      omega

theorem sizeOf_get_lt (v : JsValue) (key : String) (ho : v.isObject = true)
    (hlen : key ≠ "length") (hidx : arrayIndexOf key = none) :
    sizeOf (v.get key) < sizeOf v := by
  cases v with
  | object fields => simpa [JsValue.get] using sizeOf_lookupField_lt fields key
  | array l =>
    have h1 := one_le_sizeOf_list l
    simp only [JsValue.get, if_neg hlen, hidx]
    simp_arith
    omega
  | undefined => simp [JsValue.isObject] at ho
  | null => simp [JsValue.isObject] at ho
  | boolean b => simp [JsValue.isObject] at ho
  | number n => simp [JsValue.isObject] at ho
  | str s => simp [JsValue.isObject] at ho

mutual

/-- `RuleFromJsRule` from `src/compile.cc`: converts one dynamic rule node
into a `rule_ptr` (`Option Rule`; `none` is the null pointer returned after
`ThrowException`).  Faithful to the source, the `CHOICE`/`SEQ`/`ERROR`/
`REPEAT` branches do **not** inspect the results of their recursive calls:
a null child is pushed/wrapped as-is. -/
def RuleFromJsRule (js_rule : JsValue) : Res (Option Rule) :=
  if ho : js_rule.isObject then
    let js_type := js_rule.get "type"
    if js_type.isString then
      let type := jsToString js_type
      if type = "BLANK" then .ok (some .blank) none
      else if type = "CHOICE" then
        match RuleMembers (js_rule.get "members") with
        | .ok members t => .ok (some (.choice members)) t
        | .crash w => .crash w
      else if type = "ERROR" then
        match RuleFromJsRule (js_rule.get "value") with
        | .ok r t => .ok (some (.err r)) t
        | .crash w => .crash w
      else if type = "PATTERN" then
        .ok (some (.pattern (jsToString (js_rule.get "value")))) none
      else if type = "REPEAT" then
        match RuleFromJsRule (js_rule.get "value") with
        | .ok r t => .ok (some (.repeat r)) t
        | .crash w => .crash w
      else if type = "SEQ" then
        match RuleMembers (js_rule.get "members") with
        | .ok members t => .ok (some (.seq members)) t
        | .crash w => .crash w
      else if type = "STRING" then
        .ok (some (.str (jsToString (js_rule.get "value")))) none
      else if type = "SYMBOL" then
        .ok (some (.sym (jsToString (js_rule.get "name")))) none
      else
        .ok none (some ("Unexpected rule type: " ++ type))
    else
      .ok none (some "Expected rule type to be a string")
  else
    .ok none (some "Expected rule to be an object")
termination_by sizeOf js_rule
decreasing_by
  all_goals simp_wf
  all_goals exact sizeOf_get_lt _ _ ho (by decide) (by decide)

/-- The `members` handling shared by the `CHOICE` and `SEQ` branches: the
source calls `js_members->Length()` through an unchecked `Array` cast, so a
non-array `members` value is undefined behaviour (`crash`); on an actual
array it runs the element loop. -/
def RuleMembers (js_members : JsValue) : Res (List (Option Rule)) :=
  match js_members with
  | .array l => RuleMemberList l
  | .undefined => .crash "Array::Length on a non-array value"
  | .null => .crash "Array::Length on a non-array value"
  | .boolean _ => .crash "Array::Length on a non-array value"
  | .number _ => .crash "Array::Length on a non-array value"
  | .str _ => .crash "Array::Length on a non-array value"
  | .object _ => .crash "Array::Length on a non-array value"
termination_by sizeOf js_members
decreasing_by
  all_goals simp_wf

/-- The member loop of the `CHOICE`/`SEQ` branches: builds each member in
order and pushes the result — null or not — onto the vector. -/
def RuleMemberList (l : List JsValue) : Res (List (Option Rule)) :=
  match l with
  | [] => .ok [] none
  | m :: rest =>
    match RuleFromJsRule m with
    | .crash w => .crash w
    | .ok r t₁ =>
      match RuleMemberList rest with
      | .crash w => .crash w
      | .ok rs t₂ => .ok (r :: rs) (lastThrow t₁ t₂)
termination_by sizeOf l
decreasing_by
  all_goals simp_wf
  all_goals simp_arith

end

/-- The typed grammar (`tree_sitter::Grammar`, declared in the external
header `tree_sitter/compiler.h`).  Modelled from the spec: "a name plus an
ordered sequence of (rule-name, Rule) pairs" — except that, as the source
shows at its construction sites `Grammar({})` and `Grammar(rules)`, the
value itself carries only the ordered rule sequence; the name travels
alongside it as a separate argument of `tree_sitter::compile`. -/
structure Grammar where
  rules : List (String × Rule)
deriving Repr

/-- Modelled from the spec: a conflict report produced by the external
compile step (`tree_sitter::Conflict`); opaque to this core, which never
inspects it. -/
structure Conflict where
  description : String
deriving Repr

/-- Modelled from the spec: the fatal-error report of the external compile
step (`const tree_sitter::GrammarError *` in the source; an `Option` value
models the nullable pointer).  Opaque to this core. -/
structure GrammarError where
  message : String
deriving Repr

/-- `js_rules->GetOwnPropertyNames()`: on a plain object, its keys in
insertion order; on an array, the canonical element indices (`length` is
not enumerable).  Any other receiver reached this call through the
unchecked `Handle<Object>` cast in `ObjectGet`, and the operation is
undefined behaviour (`crash`). -/
def getOwnPropertyNames : JsValue → Res (List String)
  | .object fields => .ok (fields.map Prod.fst) none
  | .array l => .ok ((List.range l.length).map (fun i => toString i)) none
  | _ => .crash "GetOwnPropertyNames on a non-object value"

/-- The rule loop of `GrammarFromJsGrammar`: for each rule name, in
enumeration order, reads the corresponding property of `js_rules`, builds
the rule, and either accumulates `(name, rule)` or — when the builder
returned a null `rule_ptr` — aborts, discarding the accumulated entries
(the early `return { Grammar({}), false }` of the source). -/
def GrammarRuleLoop (js_rules : JsValue) : List String → Res (List (String × Rule) × Bool)
  | [] => .ok ([], true) none
  | rule_name :: rest =>
    match RuleFromJsRule (js_rules.get rule_name) with
    | .crash w => .crash w
    | .ok (some rule) t₁ =>
      match GrammarRuleLoop js_rules rest with
      | .crash w => .crash w
      | .ok (rules, ok2) t₂ =>
        if ok2 then .ok ((rule_name, rule) :: rules, true) (lastThrow t₁ t₂)
        else .ok ([], false) (lastThrow t₁ t₂)
    | .ok none t₁ => .ok ([], false) t₁

/-- `GrammarFromJsGrammar` from `src/compile.cc`.  Faithful to the source,
the not-an-object check on the `rules` field throws but does **not**
return: control falls through to `GetOwnPropertyNames()` on the non-object
value (undefined behaviour, `crash`). -/
def GrammarFromJsGrammar (js_grammar : JsValue) : Res (Grammar × Bool) :=
  let js_rules := js_grammar.get "rules"
  let t₀ : Option String :=
    if js_rules.isObject then none else some "Expected grammar rules to be an object"
  match getOwnPropertyNames js_rules with
  | .crash w => .crash w
  | .ok rule_names t₁ =>
    match GrammarRuleLoop js_rules rule_names with
    | .crash w => .crash w
    | .ok (rules, true) t₂ => .ok (Grammar.mk rules, true) (lastThrow (lastThrow t₀ t₁) t₂)
    | .ok (_, false) t₂ => .ok (Grammar.mk [], false) (lastThrow (lastThrow t₀ t₁) t₂)

/-- What `Compile` hands back to the JavaScript caller: the handle it
returns (`Undefined()` or a new string). -/
inductive JsReturn where
  | undef : JsReturn
  | str : String → JsReturn
deriving Repr

/-- `Compile` from `src/compile.cc`, parametrised by the external
`tree_sitter::compile` step (`compileFn`), which returns the tuple
`(generated_text, conflicts, optional_error)`.  The source returns
`String::New(get<0>(result))` unconditionally once the grammar was
assembled — the error component of the tuple is never inspected. -/
def Compile (compileFn : Grammar → String → String × List Conflict × Option GrammarError)
    (js_grammar : JsValue) : Res JsReturn :=
  if js_grammar.isObject then
    let js_name := js_grammar.get "name"
    if js_name.isString then
      let name := jsToString js_name
      match GrammarFromJsGrammar js_grammar with
      | .crash w => .crash w
      | .ok (grammar, true) t => .ok (.str (compileFn grammar name).1) t
      | .ok (_, false) t => .ok .undef t
    else
      .ok .undef (some "Expected grammar name to be a string")
  else
    .ok .undef (some "Expected grammar to be an object")

/-! ## Concrete dynamic values used by the claims -/

/-- `{type: "BLANK"}` — the smallest well-formed rule node. -/
def jsBlank : JsValue := .object [("type", .str "BLANK")]

/-- `{type: "BOGUS"}` — a node with an unrecognized `type` tag. -/
def jsBogus : JsValue := .object [("type", .str "BOGUS")]

/-- `{type: "CHOICE"}` — a CHOICE node with no `members` field. -/
def jsChoiceNoMembers : JsValue := .object [("type", .str "CHOICE")]

/-- `{type: "CHOICE", members: [{type: "BOGUS"}, {type: "BLANK"}]}` — a
CHOICE node whose first member fails to build. -/
def jsChoiceBad : JsValue :=
  .object [("type", .str "CHOICE"), ("members", .array [jsBogus, jsBlank])]

/-- `{type: "SEQ", members: [{type: "BLANK"}, {type: "BOGUS"}]}` — a SEQ
node whose second member fails to build. -/
def jsSeqBad : JsValue :=
  .object [("type", .str "SEQ"), ("members", .array [jsBlank, jsBogus])]

/-- `{type: "STRING", value: "x"}`. -/
def jsStrX : JsValue := .object [("type", .str "STRING"), ("value", .str "x")]

/-- `{type: "STRING", value: "a"}`. -/
def jsStrA : JsValue := .object [("type", .str "STRING"), ("value", .str "a")]

/-- `{type: "SYMBOL", name: "b"}`. -/
def jsSymB : JsValue := .object [("type", .str "SYMBOL"), ("name", .str "b")]

/-- `{type: "CHOICE", members: [A, B]}` with `A = {type:"STRING",value:"a"}`
and `B = {type:"SYMBOL",name:"b"}`. -/
def jsChoiceAB : JsValue :=
  .object [("type", .str "CHOICE"), ("members", .array [jsStrA, jsSymB])]

/-- `{type: "CHOICE", members: [B, A]}` — the same members in the reverse
order. -/
def jsChoiceBA : JsValue :=
  .object [("type", .str "CHOICE"), ("members", .array [jsSymB, jsStrA])]

/-- `{type: "STRING"}` — a STRING node with no `value` field. -/
def jsStrNoValue : JsValue := .object [("type", .str "STRING")]

/-- `{type: "PATTERN", value: null}` — a PATTERN node whose `value` is not
a string. -/
def jsPatternNullValue : JsValue := .object [("type", .str "PATTERN"), ("value", .null)]

/-- `{type: "SYMBOL", name: false}` — a SYMBOL node whose `name` is not a
string. -/
def jsSymbolBoolName : JsValue := .object [("type", .str "SYMBOL"), ("name", .boolean false)]

/-- `{name: "g", rules: {start: {type: "STRING", value: "x"}}}` — the
end-to-end example description from the spec. -/
def descStr : JsValue :=
  .object [("name", .str "g"), ("rules", .object [("start", jsStrX)])]

/-- `{name: "g", rules: {start: {type: "BLANK"}}}` — a minimal well-formed
description. -/
def descBlank : JsValue :=
  .object [("name", .str "g"), ("rules", .object [("start", jsBlank)])]

/-- `{name: "g", rules: {start: <jsSeqBad>}}` — a description whose one
rule contains a failing member deep inside a SEQ. -/
def descSeqBad : JsValue :=
  .object [("name", .str "g"), ("rules", .object [("start", jsSeqBad)])]

/-- `{name: "g"}` — a description with no `rules` field. -/
def descNoRules : JsValue := .object [("name", .str "g")]

/-- `{rules: 5}` — a description with no `name` and a malformed `rules`. -/
def descNoName : JsValue := .object [("rules", .number 5)]

/-- `{name: "g", rules: {a: BLANK, b: BOGUS, c: BLANK}}` — three rule
entries of which the middle one fails to build. -/
def descFailB : JsValue :=
  .object [("name", .str "g"),
    ("rules", .object [("a", jsBlank), ("b", jsBogus), ("c", jsBlank)])]

/-- A stand-in for the external `tree_sitter::compile`: returns empty text,
no conflicts, no error. -/
def compileStub : Grammar → String → String × List Conflict × Option GrammarError :=
  fun _ _ => ("", [], none)

/-- A stand-in for the external `tree_sitter::compile` that reports a fatal
error alongside its generated text. -/
def compileFatalStub : Grammar → String → String × List Conflict × Option GrammarError :=
  fun _ _ => ("generated", [], some (GrammarError.mk "fatal error"))

/-! ## Derived equations

One clean equation per branch of the embedded functions, derived from the
(well-founded) definitions once and used by all later proofs. -/

theorem RuleFromJsRule_not_object (v : JsValue) (ho : v.isObject = false) :
    RuleFromJsRule v = .ok none (some "Expected rule to be an object") := by
  rw [RuleFromJsRule.eq_def]
  simp [ho]

theorem RuleFromJsRule_bad_type (v : JsValue) (ho : v.isObject = true)
    (ht : (v.get "type").isString = false) :
    RuleFromJsRule v = .ok none (some "Expected rule type to be a string") := by
  rw [RuleFromJsRule.eq_def]
  simp [ho, ht]

theorem RuleFromJsRule_blank (v : JsValue) (ho : v.isObject = true)
    (ht : v.get "type" = .str "BLANK") :
    RuleFromJsRule v = .ok (some .blank) none := by
  rw [RuleFromJsRule.eq_def]
  simp [ho, ht, JsValue.isString, jsToString]

theorem RuleFromJsRule_choice (v : JsValue) (ho : v.isObject = true)
    (ht : v.get "type" = .str "CHOICE") :
    RuleFromJsRule v =
      match RuleMembers (v.get "members") with
      | .ok members t => .ok (some (.choice members)) t
      | .crash w => .crash w := by
  rw [RuleFromJsRule.eq_def]
  simp [ho, ht, JsValue.isString, jsToString]

theorem RuleFromJsRule_error (v : JsValue) (ho : v.isObject = true)
    (ht : v.get "type" = .str "ERROR") :
    RuleFromJsRule v =
      match RuleFromJsRule (v.get "value") with
      | .ok r t => .ok (some (.err r)) t
      | .crash w => .crash w := by
  rw [RuleFromJsRule.eq_def]
  simp [ho, ht, JsValue.isString, jsToString]

theorem RuleFromJsRule_pattern (v : JsValue) (ho : v.isObject = true)
    (ht : v.get "type" = .str "PATTERN") :
    RuleFromJsRule v = .ok (some (.pattern (jsToString (v.get "value")))) none := by
  rw [RuleFromJsRule.eq_def]
  simp [ho, ht, JsValue.isString, jsToString]

theorem RuleFromJsRule_repeat (v : JsValue) (ho : v.isObject = true)
    (ht : v.get "type" = .str "REPEAT") :
    RuleFromJsRule v =
      match RuleFromJsRule (v.get "value") with
      | .ok r t => .ok (some (.repeat r)) t
      | .crash w => .crash w := by
  rw [RuleFromJsRule.eq_def]
  simp [ho, ht, JsValue.isString, jsToString]

theorem RuleFromJsRule_seq (v : JsValue) (ho : v.isObject = true)
    (ht : v.get "type" = .str "SEQ") :
    RuleFromJsRule v =
      match RuleMembers (v.get "members") with
      | .ok members t => .ok (some (.seq members)) t
      | .crash w => .crash w := by
  rw [RuleFromJsRule.eq_def]
  simp [ho, ht, JsValue.isString, jsToString]

theorem RuleFromJsRule_string (v : JsValue) (ho : v.isObject = true)
    (ht : v.get "type" = .str "STRING") :
    RuleFromJsRule v = .ok (some (.str (jsToString (v.get "value")))) none := by
  rw [RuleFromJsRule.eq_def]
  simp [ho, ht, JsValue.isString, jsToString]

theorem RuleFromJsRule_symbol (v : JsValue) (ho : v.isObject = true)
    (ht : v.get "type" = .str "SYMBOL") :
    RuleFromJsRule v = .ok (some (.sym (jsToString (v.get "name")))) none := by
  rw [RuleFromJsRule.eq_def]
  simp [ho, ht, JsValue.isString, jsToString]

theorem RuleFromJsRule_unknown (v : JsValue) (s : String) (ho : v.isObject = true)
    (ht : v.get "type" = .str s)
    (h₁ : s ≠ "BLANK") (h₂ : s ≠ "CHOICE") (h₃ : s ≠ "ERROR") (h₄ : s ≠ "PATTERN")
    (h₅ : s ≠ "REPEAT") (h₆ : s ≠ "SEQ") (h₇ : s ≠ "STRING") (h₈ : s ≠ "SYMBOL") :
    RuleFromJsRule v = .ok none (some ("Unexpected rule type: " ++ s)) := by
  rw [RuleFromJsRule.eq_def]
  simp [ho, ht, JsValue.isString, jsToString, h₁, h₂, h₃, h₄, h₅, h₆, h₇, h₈]

theorem RuleMembers_array (l : List JsValue) : RuleMembers (.array l) = RuleMemberList l := by
  rw [RuleMembers]

theorem RuleMembers_not_array (v : JsValue) (h : ∀ l, v ≠ .array l) :
    RuleMembers v = .crash "Array::Length on a non-array value" := by
  cases v
  case array l => exact absurd rfl (h l)
  all_goals rw [RuleMembers]

theorem RuleMemberList_nil : RuleMemberList [] = .ok [] none := by
  rw [RuleMemberList.eq_def]

theorem RuleMemberList_cons (m : JsValue) (rest : List JsValue) :
    RuleMemberList (m :: rest) =
      match RuleFromJsRule m with
      | .crash w => .crash w
      | .ok r t₁ =>
        match RuleMemberList rest with
        | .crash w => .crash w
        | .ok rs t₂ => .ok (r :: rs) (lastThrow t₁ t₂) := by
  rw [RuleMemberList.eq_def]

theorem lastThrow_none_left (t : Option String) : lastThrow none t = t := by
  cases t <;> rfl

theorem lastThrow_none_right (t : Option String) : lastThrow t none = t := rfl

theorem GrammarRuleLoop_nil (js_rules : JsValue) :
    GrammarRuleLoop js_rules [] = .ok ([], true) none := rfl

theorem GrammarRuleLoop_cons (js_rules : JsValue) (rule_name : String) (rest : List String) :
    GrammarRuleLoop js_rules (rule_name :: rest) =
      match RuleFromJsRule (js_rules.get rule_name) with
      | .crash w => .crash w
      | .ok (some rule) t₁ =>
        match GrammarRuleLoop js_rules rest with
        | .crash w => .crash w
        | .ok (rules, ok2) t₂ =>
          if ok2 then .ok ((rule_name, rule) :: rules, true) (lastThrow t₁ t₂)
          else .ok ([], false) (lastThrow t₁ t₂)
      | .ok none t₁ => .ok ([], false) t₁ := rfl

theorem GrammarFromJsGrammar_rules_object (js_grammar : JsValue)
    (fields : List (String × JsValue)) (hr : js_grammar.get "rules" = .object fields) :
    GrammarFromJsGrammar js_grammar =
      match GrammarRuleLoop (.object fields) (fields.map Prod.fst) with
      | .crash w => .crash w
      | .ok (rules, true) t => .ok (Grammar.mk rules, true) t
      | .ok (_, false) t => .ok (Grammar.mk [], false) t := by
  unfold GrammarFromJsGrammar
  rw [hr]
  simp only [JsValue.isObject, getOwnPropertyNames, if_pos]
  cases hl : GrammarRuleLoop (.object fields) (fields.map Prod.fst) with
  | crash w => rfl
  | ok p t =>
    obtain ⟨rules, ok2⟩ := p
    cases ok2 <;> simp [lastThrow_none_left]

theorem GrammarFromJsGrammar_rules_not_object (js_grammar : JsValue)
    (h : (js_grammar.get "rules").isObject = false) :
    GrammarFromJsGrammar js_grammar = .crash "GetOwnPropertyNames on a non-object value" := by
  unfold GrammarFromJsGrammar
  cases hv : js_grammar.get "rules" <;>
    simp [hv, JsValue.isObject, getOwnPropertyNames] at h ⊢

theorem Compile_not_object (compileFn : Grammar → String → String × List Conflict × Option GrammarError)
    (js_grammar : JsValue) (ho : js_grammar.isObject = false) :
    Compile compileFn js_grammar = .ok .undef (some "Expected grammar to be an object") := by
  unfold Compile
  simp [ho]

theorem Compile_bad_name (compileFn : Grammar → String → String × List Conflict × Option GrammarError)
    (js_grammar : JsValue) (ho : js_grammar.isObject = true)
    (hn : (js_grammar.get "name").isString = false) :
    Compile compileFn js_grammar = .ok .undef (some "Expected grammar name to be a string") := by
  unfold Compile
  simp [ho, hn]

theorem Compile_assembled (compileFn : Grammar → String → String × List Conflict × Option GrammarError)
    (js_grammar : JsValue) (grammar : Grammar) (t : Option String)
    (ho : js_grammar.isObject = true) (hn : (js_grammar.get "name").isString = true)
    (ha : GrammarFromJsGrammar js_grammar = .ok (grammar, true) t) :
    Compile compileFn js_grammar =
      .ok (.str (compileFn grammar (jsToString (js_grammar.get "name"))).1) t := by
  unfold Compile
  simp [ho, hn, ha]

theorem Compile_not_assembled (compileFn : Grammar → String → String × List Conflict × Option GrammarError)
    (js_grammar : JsValue) (grammar : Grammar) (t : Option String)
    (ho : js_grammar.isObject = true) (hn : (js_grammar.get "name").isString = true)
    (ha : GrammarFromJsGrammar js_grammar = .ok (grammar, false) t) :
    Compile compileFn js_grammar = .ok .undef t := by
  unfold Compile
  simp [ho, hn, ha]

theorem Compile_crash (compileFn : Grammar → String → String × List Conflict × Option GrammarError)
    (js_grammar : JsValue) (w : String)
    (ho : js_grammar.isObject = true) (hn : (js_grammar.get "name").isString = true)
    (ha : GrammarFromJsGrammar js_grammar = .crash w) :
    Compile compileFn js_grammar = .crash w := by
  unfold Compile
  simp [ho, hn, ha]

/-- The (possibly null) `rule_ptr` a member node builds to, ignoring the
exception state — used to state order-preservation of the member loop. -/
def buildChild (m : JsValue) : Option Rule :=
  match RuleFromJsRule m with
  | .ok r _ => r
  | .crash _ => none

theorem RuleMemberList_ok_of_members (l : List JsValue)
    (h : ∀ m ∈ l, ∃ r t, RuleFromJsRule m = .ok r t) :
    ∃ t, RuleMemberList l = .ok (l.map buildChild) t := by
  induction l with
  | nil => exact ⟨none, by rw [RuleMemberList_nil]; rfl⟩
  | cons m rest ih =>
    obtain ⟨r, t, hm⟩ := h m (by simp)
    obtain ⟨t₂, hrest⟩ := ih (fun x hx => h x (by simp [hx]))
    refine ⟨lastThrow t t₂, ?_⟩
    rw [RuleMemberList_cons, hm, hrest]
    simp [buildChild, hm]

theorem GrammarRuleLoop_ok_iff (js_rules : JsValue) (names : List String) :
    (∃ entries t, GrammarRuleLoop js_rules names = .ok (entries, true) t) ↔
      ∀ m ∈ names, ∃ r t', RuleFromJsRule (js_rules.get m) = .ok (some r) t' := by
  induction names with
  | nil => simp [GrammarRuleLoop_nil]
  | cons n rest ih =>
    constructor
    · rintro ⟨entries, t, h⟩
      rw [GrammarRuleLoop_cons] at h
      cases hn : RuleFromJsRule (js_rules.get n) with
      | crash w => rw [hn] at h; simp at h
      | ok r t₁ =>
        cases r with
        | none => rw [hn] at h; simp at h
        | some rule =>
          rw [hn] at h
          cases hrest : GrammarRuleLoop js_rules rest with
          | crash w => rw [hrest] at h; simp at h
          | ok p t₂ =>
            obtain ⟨rs, ok2⟩ := p
            rw [hrest] at h
            cases ok2 with
            | false => simp at h
            | true =>
              intro m hm
              rcases List.mem_cons.mp hm with rfl | hm'
              · exact ⟨rule, t₁, hn⟩
              · exact (ih.mp ⟨rs, t₂, hrest⟩) m hm'
    · intro h
      obtain ⟨rule, t₁, hn⟩ := h n (by simp)
      obtain ⟨rs, t₂, hrest⟩ := ih.mpr (fun m hm => h m (by simp [hm]))
      exact ⟨(n, rule) :: rs, lastThrow t₁ t₂, by rw [GrammarRuleLoop_cons, hn, hrest]; simp⟩

theorem GrammarRuleLoop_fails (js_rules : JsValue) (pre : List String) (n : String)
    (post : List String)
    (hpre : ∀ m ∈ pre, ∃ r t, RuleFromJsRule (js_rules.get m) = .ok (some r) t)
    (hn : ∃ t, RuleFromJsRule (js_rules.get n) = .ok none t) :
    ∃ t, GrammarRuleLoop js_rules (pre ++ n :: post) = .ok ([], false) t := by
  induction pre with
  | nil =>
    obtain ⟨t, h⟩ := hn
    exact ⟨t, by rw [List.nil_append, GrammarRuleLoop_cons, h]⟩
  | cons p ps ih =>
    obtain ⟨r, t₁, hp⟩ := hpre p (by simp)
    obtain ⟨t₂, hrest⟩ := ih (fun m hm => hpre m (by simp [hm]))
    refine ⟨lastThrow t₁ t₂, ?_⟩
    rw [List.cons_append, GrammarRuleLoop_cons, hp, hrest]
    simp

/-! ## Evaluations of the embedded functions at the concrete inputs -/

theorem eval_jsBlank : RuleFromJsRule jsBlank = .ok (some .blank) none :=
  RuleFromJsRule_blank jsBlank rfl rfl

theorem eval_jsBogus : RuleFromJsRule jsBogus = .ok none (some "Unexpected rule type: BOGUS") :=
  RuleFromJsRule_unknown jsBogus "BOGUS" rfl rfl (by decide) (by decide) (by decide)
    (by decide) (by decide) (by decide) (by decide) (by decide)

theorem eval_jsStrX : RuleFromJsRule jsStrX = .ok (some (.str "x")) none :=
  RuleFromJsRule_string jsStrX rfl rfl

theorem eval_jsStrA : RuleFromJsRule jsStrA = .ok (some (.str "a")) none :=
  RuleFromJsRule_string jsStrA rfl rfl

theorem eval_jsSymB : RuleFromJsRule jsSymB = .ok (some (.sym "b")) none :=
  RuleFromJsRule_symbol jsSymB rfl rfl

theorem eval_jsSeqBad :
    RuleFromJsRule jsSeqBad =
      .ok (some (.seq [some .blank, none])) (some "Unexpected rule type: BOGUS") := by
  rw [RuleFromJsRule_seq jsSeqBad rfl rfl]
  have hm : jsSeqBad.get "members" = .array [jsBlank, jsBogus] := rfl
  rw [hm, RuleMembers_array, RuleMemberList_cons, eval_jsBlank, RuleMemberList_cons,
    eval_jsBogus, RuleMemberList_nil]
  rfl

theorem eval_jsChoiceBad :
    RuleFromJsRule jsChoiceBad =
      .ok (some (.choice [none, some .blank])) (some "Unexpected rule type: BOGUS") := by
  rw [RuleFromJsRule_choice jsChoiceBad rfl rfl]
  have hm : jsChoiceBad.get "members" = .array [jsBogus, jsBlank] := rfl
  rw [hm, RuleMembers_array, RuleMemberList_cons, eval_jsBogus, RuleMemberList_cons,
    eval_jsBlank, RuleMemberList_nil]
  rfl

theorem eval_jsChoiceAB :
    RuleFromJsRule jsChoiceAB = .ok (some (.choice [some (.str "a"), some (.sym "b")])) none := by
  rw [RuleFromJsRule_choice jsChoiceAB rfl rfl]
  have hm : jsChoiceAB.get "members" = .array [jsStrA, jsSymB] := rfl
  rw [hm, RuleMembers_array, RuleMemberList_cons, eval_jsStrA, RuleMemberList_cons,
    eval_jsSymB, RuleMemberList_nil]
  rfl

theorem eval_jsChoiceBA :
    RuleFromJsRule jsChoiceBA = .ok (some (.choice [some (.sym "b"), some (.str "a")])) none := by
  rw [RuleFromJsRule_choice jsChoiceBA rfl rfl]
  have hm : jsChoiceBA.get "members" = .array [jsSymB, jsStrA] := rfl
  rw [hm, RuleMembers_array, RuleMemberList_cons, eval_jsSymB, RuleMemberList_cons,
    eval_jsStrA, RuleMemberList_nil]
  rfl

theorem eval_descStr :
    GrammarFromJsGrammar descStr = .ok (Grammar.mk [("start", Rule.str "x")], true) none := by
  rw [GrammarFromJsGrammar_rules_object descStr [("start", jsStrX)] rfl]
  have h1 : List.map Prod.fst [("start", jsStrX)] = ["start"] := rfl
  have h2 : (JsValue.object [("start", jsStrX)]).get "start" = jsStrX := rfl
  rw [h1, GrammarRuleLoop_cons, h2, eval_jsStrX, GrammarRuleLoop_nil]
  rfl

theorem eval_descBlank :
    GrammarFromJsGrammar descBlank = .ok (Grammar.mk [("start", Rule.blank)], true) none := by
  rw [GrammarFromJsGrammar_rules_object descBlank [("start", jsBlank)] rfl]
  have h1 : List.map Prod.fst [("start", jsBlank)] = ["start"] := rfl
  have h2 : (JsValue.object [("start", jsBlank)]).get "start" = jsBlank := rfl
  rw [h1, GrammarRuleLoop_cons, h2, eval_jsBlank, GrammarRuleLoop_nil]
  rfl

theorem eval_descSeqBad :
    GrammarFromJsGrammar descSeqBad =
      .ok (Grammar.mk [("start", Rule.seq [some .blank, none])], true)
        (some "Unexpected rule type: BOGUS") := by
  rw [GrammarFromJsGrammar_rules_object descSeqBad [("start", jsSeqBad)] rfl]
  have h1 : List.map Prod.fst [("start", jsSeqBad)] = ["start"] := rfl
  have h2 : (JsValue.object [("start", jsSeqBad)]).get "start" = jsSeqBad := rfl
  rw [h1, GrammarRuleLoop_cons, h2, eval_jsSeqBad, GrammarRuleLoop_nil]
  rfl

theorem GrammarFromJsGrammar_loop_true (js_grammar : JsValue)
    (fields : List (String × JsValue)) (entries : List (String × Rule)) (t : Option String)
    (hr : js_grammar.get "rules" = .object fields)
    (hloop : GrammarRuleLoop (.object fields) (fields.map Prod.fst) = .ok (entries, true) t) :
    GrammarFromJsGrammar js_grammar = .ok (Grammar.mk entries, true) t := by
  rw [GrammarFromJsGrammar_rules_object js_grammar fields hr, hloop]

theorem GrammarFromJsGrammar_loop_false (js_grammar : JsValue)
    (fields : List (String × JsValue)) (entries : List (String × Rule)) (t : Option String)
    (hr : js_grammar.get "rules" = .object fields)
    (hloop : GrammarRuleLoop (.object fields) (fields.map Prod.fst) = .ok (entries, false) t) :
    GrammarFromJsGrammar js_grammar = .ok (Grammar.mk [], false) t := by
  rw [GrammarFromJsGrammar_rules_object js_grammar fields hr, hloop]

/-! ## The claims -/

/-- C1: the claimed short-circuit policy fails on the code.  When a member
of a CHOICE or SEQ node fails to build, `RuleFromJsRule` does not propagate
the failure: it pushes the null child and materialises the Choice/Seq node
around it, returning it as a successfully built (non-null) rule — which
then flows through `GrammarFromJsGrammar` into a "successful" grammar
handed to the compiler. -/
theorem claim_C1_seq_choice_keep_null_children :
    RuleFromJsRule jsSeqBad =
      .ok (some (.seq [some .blank, none])) (some "Unexpected rule type: BOGUS") ∧
    RuleFromJsRule jsChoiceBad =
      .ok (some (.choice [none, some .blank])) (some "Unexpected rule type: BOGUS") ∧
    GrammarFromJsGrammar descSeqBad =
      .ok (Grammar.mk [("start", .seq [some .blank, none])], true)
        (some "Unexpected rule type: BOGUS") :=
  ⟨eval_jsSeqBad, eval_jsChoiceBad, eval_descSeqBad⟩

/-- C2 (counterexample): on the end-to-end description whose grammar
assembles, with an external compile step that reports a fatal error,
`Compile` still returns the generated text — not the "no result" sentinel
(`Undefined`) the claim requires. -/
theorem claim_C2_counterexample :
    Compile compileFatalStub descBlank = .ok (.str "generated") none ∧
    (compileFatalStub (Grammar.mk [("start", Rule.blank)]) "g").2.2 =
      some (GrammarError.mk "fatal error") ∧
    Res.ok (JsReturn.str "generated") (none : Option String) ≠ .ok .undef none := by
  refine ⟨?_, rfl, by simp⟩
  exact Compile_assembled compileFatalStub descBlank (Grammar.mk [("start", Rule.blank)]) none
    rfl rfl eval_descBlank

/-- C2 (amended): once the typed grammar is assembled, `Compile` invokes
the external compile step and returns its generated text unconditionally —
the error component of the result is never inspected; the "no result"
sentinel is returned only when assembly itself fails. -/
theorem claim_C2_text_returned_unconditionally
    (compileFn : Grammar → String → String × List Conflict × Option GrammarError)
    (js_grammar : JsValue) (grammar : Grammar) (t : Option String)
    (ho : js_grammar.isObject = true) (hn : (js_grammar.get "name").isString = true) :
    (GrammarFromJsGrammar js_grammar = .ok (grammar, true) t →
      Compile compileFn js_grammar =
        .ok (.str (compileFn grammar (jsToString (js_grammar.get "name"))).1) t) ∧
    (GrammarFromJsGrammar js_grammar = .ok (grammar, false) t →
      Compile compileFn js_grammar = .ok .undef t) :=
  ⟨Compile_assembled compileFn js_grammar grammar t ho hn,
   Compile_not_assembled compileFn js_grammar grammar t ho hn⟩

/-- C2 (witness): the amended claim applied to the concrete description and
the fatally-erroring compile stub. -/
theorem claim_C2_witness :
    Compile compileFatalStub descBlank = .ok (.str "generated") none :=
  (claim_C2_text_returned_unconditionally compileFatalStub descBlank
    (Grammar.mk [("start", Rule.blank)]) none rfl rfl).1 eval_descBlank

/-- C3: on `{type: "CHOICE"}` with no `members` field the code does not
fail with a structural error: it reads the missing field as `undefined`,
casts it to `v8::Array` unchecked, and calls `Length()` on it — undefined
behaviour (`crash` in the model), not a thrown validation error and not an
empty Choice rule. -/
theorem claim_C3_choice_without_members_is_ub :
    RuleFromJsRule jsChoiceNoMembers = .crash "Array::Length on a non-array value" := by
  rw [RuleFromJsRule_choice jsChoiceNoMembers rfl rfl]
  have hm : jsChoiceNoMembers.get "members" = .undefined := rfl
  rw [hm, RuleMembers_not_array .undefined (by simp)]

/-- C4: on a description whose `rules` field is absent (or not an object)
the code throws the expected `TypeError` but, missing a `return`, proceeds
to call `GetOwnPropertyNames()` on the non-object value — undefined
behaviour (`crash`), so assembly does not stop cleanly at the violation as
the claim states. -/
theorem claim_C4_missing_rules_is_ub :
    GrammarFromJsGrammar descNoRules = .crash "GetOwnPropertyNames on a non-object value" ∧
    GrammarFromJsGrammar descNoName = .crash "GetOwnPropertyNames on a non-object value" ∧
    (descNoRules.get "rules").isObject = false :=
  ⟨GrammarFromJsGrammar_rules_not_object descNoRules rfl,
   GrammarFromJsGrammar_rules_not_object descNoName rfl, rfl⟩

/-- C5: if some rule entry fails to build (the builder returns a null
rule), the assembly returns `(Grammar({}), false)` — the accumulated
entries are discarded — and `Compile` returns the sentinel without ever
invoking the external compile step (the result is the same for every
`compileFn`); moreover a `(grammar, true)` result exists if and only if
every entry builds to a non-null rule. -/
theorem claim_C5_first_failure_aborts :
    (∀ (js_g : JsValue) (fields : List (String × JsValue)) (pre : List String)
        (n : String) (post : List String),
      js_g.isObject = true →
      (js_g.get "name").isString = true →
      js_g.get "rules" = .object fields →
      fields.map Prod.fst = pre ++ n :: post →
      (∀ m ∈ pre, ∃ r t, RuleFromJsRule ((JsValue.object fields).get m) = .ok (some r) t) →
      (∃ t, RuleFromJsRule ((JsValue.object fields).get n) = .ok none t) →
      ∃ t, GrammarFromJsGrammar js_g = .ok (Grammar.mk [], false) t ∧
        ∀ compileFn, Compile compileFn js_g = .ok .undef t) ∧
    (∀ (js_g : JsValue) (fields : List (String × JsValue)),
      js_g.get "rules" = .object fields →
      ((∃ g t, GrammarFromJsGrammar js_g = .ok (g, true) t) ↔
        ∀ m ∈ fields.map Prod.fst,
          ∃ r t', RuleFromJsRule ((JsValue.object fields).get m) = .ok (some r) t')) := by
  constructor
  · intro js_g fields pre n post ho hn hr hsplit hpre hfail
    obtain ⟨t, hloop⟩ := GrammarRuleLoop_fails (.object fields) pre n post hpre hfail
    rw [← hsplit] at hloop
    have hg := GrammarFromJsGrammar_loop_false js_g fields [] t hr hloop
    exact ⟨t, hg, fun compileFn =>
      Compile_not_assembled compileFn js_g (Grammar.mk []) t ho hn hg⟩
  · intro js_g fields hr
    constructor
    · rintro ⟨g, t, hg⟩
      cases hloop : GrammarRuleLoop (.object fields) (fields.map Prod.fst) with
      | crash w =>
        have := GrammarFromJsGrammar_rules_object js_g fields hr
        rw [hloop] at this
        rw [this] at hg
        simp at hg
      | ok p t' =>
        obtain ⟨entries, ok2⟩ := p
        cases ok2 with
        | false =>
          have := GrammarFromJsGrammar_loop_false js_g fields entries t' hr hloop
          rw [this] at hg
          simp at hg
        | true => exact (GrammarRuleLoop_ok_iff _ _).mp ⟨entries, t', hloop⟩
    · intro hall
      obtain ⟨entries, t, hloop⟩ :=
        (GrammarRuleLoop_ok_iff (.object fields) (fields.map Prod.fst)).mpr hall
      exact ⟨Grammar.mk entries, t, GrammarFromJsGrammar_loop_true js_g fields entries t hr hloop⟩

/-- C5 (witness): the failure half applied to the concrete description
`{name: "g", rules: {a: BLANK, b: BOGUS, c: BLANK}}`, whose middle entry
fails to build. -/
theorem claim_C5_witness :
    ∃ t, GrammarFromJsGrammar descFailB = .ok (Grammar.mk [], false) t ∧
      ∀ compileFn, Compile compileFn descFailB = .ok .undef t := by
  refine claim_C5_first_failure_aborts.1 descFailB
    [("a", jsBlank), ("b", jsBogus), ("c", jsBlank)] ["a"] "b" ["c"] rfl rfl rfl rfl ?_ ?_
  · intro m hm
    simp only [List.mem_singleton] at hm
    subst hm
    exact ⟨.blank, none, eval_jsBlank⟩
  · exact ⟨some "Unexpected rule type: BOGUS", eval_jsBogus⟩

/-- C6: a node whose `type` is a string outside the eight recognized tags
fails with the unknown-rule-type error carrying exactly that string, and no
rule is constructed (the returned `rule_ptr` is null). -/
theorem claim_C6_unknown_rule_type (v : JsValue) (s : String)
    (ho : v.isObject = true) (ht : v.get "type" = .str s)
    (hs : s ∉ (["BLANK", "CHOICE", "ERROR", "PATTERN", "REPEAT",
      "SEQ", "STRING", "SYMBOL"] : List String)) :
    RuleFromJsRule v = .ok none (some ("Unexpected rule type: " ++ s)) := by
  simp only [List.mem_cons, List.not_mem_nil, or_false, not_or] at hs
  exact RuleFromJsRule_unknown v s ho ht hs.1 hs.2.1 hs.2.2.1 hs.2.2.2.1 hs.2.2.2.2.1
    hs.2.2.2.2.2.1 hs.2.2.2.2.2.2.1 hs.2.2.2.2.2.2.2

/-- C6 (witness): the claim applied to `{type: "BOGUS"}`. -/
theorem claim_C6_witness :
    RuleFromJsRule jsBogus = .ok none (some ("Unexpected rule type: " ++ "BOGUS")) :=
  claim_C6_unknown_rule_type jsBogus "BOGUS" rfl rfl (by decide)

/-- C7: for CHOICE and SEQ nodes whose members all build, the children of
the resulting rule are exactly the build results of the members, in the order of
the `members` sequence; in particular, building members `[A, B]` and
`[B, A]` (with `A = Str("a")`, `B = Sym("b")`) yields structurally unequal
rule trees. -/
theorem claim_C7_member_order_preserved :
    (∀ (v : JsValue) (l : List JsValue),
      v.isObject = true → v.get "type" = .str "CHOICE" → v.get "members" = .array l →
      (∀ m ∈ l, ∃ r t, RuleFromJsRule m = .ok r t) →
      ∃ t, RuleFromJsRule v = .ok (some (.choice (l.map buildChild))) t) ∧
    (∀ (v : JsValue) (l : List JsValue),
      v.isObject = true → v.get "type" = .str "SEQ" → v.get "members" = .array l →
      (∀ m ∈ l, ∃ r t, RuleFromJsRule m = .ok r t) →
      ∃ t, RuleFromJsRule v = .ok (some (.seq (l.map buildChild))) t) ∧
    RuleFromJsRule jsChoiceAB = .ok (some (.choice [some (.str "a"), some (.sym "b")])) none ∧
    RuleFromJsRule jsChoiceBA = .ok (some (.choice [some (.sym "b"), some (.str "a")])) none ∧
    RuleFromJsRule jsChoiceAB ≠ RuleFromJsRule jsChoiceBA := by
  refine ⟨?_, ?_, eval_jsChoiceAB, eval_jsChoiceBA, ?_⟩
  · intro v l ho ht hm hmem
    obtain ⟨t, hl⟩ := RuleMemberList_ok_of_members l hmem
    exact ⟨t, by rw [RuleFromJsRule_choice v ho ht, hm, RuleMembers_array, hl]⟩
  · intro v l ho ht hm hmem
    obtain ⟨t, hl⟩ := RuleMemberList_ok_of_members l hmem
    exact ⟨t, by rw [RuleFromJsRule_seq v ho ht, hm, RuleMembers_array, hl]⟩
  · rw [eval_jsChoiceAB, eval_jsChoiceBA]
    simp

/-- C7 (witness): the CHOICE half applied to the concrete members
`[Str("a") node, Sym("b") node]`. -/
theorem claim_C7_witness :
    ∃ t, RuleFromJsRule jsChoiceAB =
      .ok (some (.choice ([jsStrA, jsSymB].map buildChild))) t := by
  refine claim_C7_member_order_preserved.1 jsChoiceAB [jsStrA, jsSymB] rfl rfl rfl ?_
  intro m hm
  simp only [List.mem_cons, List.not_mem_nil, or_false] at hm
  rcases hm with rfl | rfl
  · exact ⟨some (.str "a"), none, eval_jsStrA⟩
  · exact ⟨some (.sym "b"), none, eval_jsSymB⟩

/-- C8: the end-to-end example: `{name: "g", rules: {start: {type:
"STRING", value: "x"}}}` assembles into the grammar with the single
ordered entry `("start", Str("x"))`, and `Compile` passes exactly that
grammar and the name `"g"` to the external compile step, returning its
generated text. -/
theorem claim_C8_end_to_end_example :
    GrammarFromJsGrammar descStr = .ok (Grammar.mk [("start", Rule.str "x")], true) none ∧
    ∀ compileFn, Compile compileFn descStr =
      .ok (.str (compileFn (Grammar.mk [("start", Rule.str "x")]) "g").1) none := by
  refine ⟨eval_descStr, fun compileFn => ?_⟩
  exact Compile_assembled compileFn descStr (Grammar.mk [("start", Rule.str "x")]) none
    rfl rfl eval_descStr

/-- C8 (witness): the example run with the trivial compile stub. -/
theorem claim_C8_witness : Compile compileStub descStr = .ok (.str "") none :=
  claim_C8_end_to_end_example.2 compileStub

/-- C9: `Compile` validates the grammar name before touching the rules
mapping: for every description that is an object whose `name` is absent or
not a string, it returns the name error — for every external compile step
and regardless of the `rules` field (which is never read: the result is
uniform over all descriptions with a bad name, including those whose
malformed `rules` would otherwise crash the assembler). -/
theorem claim_C9_name_checked_before_rules
    (compileFn : Grammar → String → String × List Conflict × Option GrammarError)
    (js_grammar : JsValue)
    (ho : js_grammar.isObject = true) (hn : (js_grammar.get "name").isString = false) :
    Compile compileFn js_grammar = .ok .undef (some "Expected grammar name to be a string") :=
  Compile_bad_name compileFn js_grammar ho hn

/-- C9 (witness): the claim applied to `{rules: 5}` (no name, malformed
rules): `Compile` returns the name error, although reading the rules
mapping would have been undefined behaviour. -/
theorem claim_C9_witness :
    Compile compileStub descNoName = .ok .undef (some "Expected grammar name to be a string") ∧
    GrammarFromJsGrammar descNoName = .crash "GetOwnPropertyNames on a non-object value" :=
  ⟨claim_C9_name_checked_before_rules compileStub descNoName rfl rfl,
   GrammarFromJsGrammar_rules_not_object descNoName rfl⟩

/-- C10: for PATTERN, STRING and SYMBOL nodes the payload field is not
validated: the rule is built, without failing, from the JavaScript
string conversion of whatever the field holds — including `undefined` when
it is absent. -/
theorem claim_C10_payload_not_validated (v : JsValue) (ho : v.isObject = true) :
    (v.get "type" = .str "PATTERN" →
      RuleFromJsRule v = .ok (some (.pattern (jsToString (v.get "value")))) none) ∧
    (v.get "type" = .str "STRING" →
      RuleFromJsRule v = .ok (some (.str (jsToString (v.get "value")))) none) ∧
    (v.get "type" = .str "SYMBOL" →
      RuleFromJsRule v = .ok (some (.sym (jsToString (v.get "name")))) none) :=
  ⟨RuleFromJsRule_pattern v ho, RuleFromJsRule_string v ho, RuleFromJsRule_symbol v ho⟩

/-- C10 (witness): a STRING node with no `value`, a PATTERN node with a
null `value` and a SYMBOL node with a boolean `name` all build rules from
the stringified payload. -/
theorem claim_C10_witness :
    RuleFromJsRule jsStrNoValue = .ok (some (.str "undefined")) none ∧
    RuleFromJsRule jsPatternNullValue = .ok (some (.pattern "null")) none ∧
    RuleFromJsRule jsSymbolBoolName = .ok (some (.sym "false")) none :=
  ⟨(claim_C10_payload_not_validated jsStrNoValue rfl).2.1 rfl,
   (claim_C10_payload_not_validated jsPatternNullValue rfl).1 rfl,
   (claim_C10_payload_not_validated jsSymbolBoolName rfl).2.2 rfl⟩
